import Mathlib

/-!
Shallow embedding of the packaging subsystem of `sebo83910/litex_axi_converter`
(`src/axi_converter.py` and `src/axi_converter-packaging.py`), together with
theorems settling the specification claims about it.

Files are modelled as lists of lines, exactly as Python's `readlines` produces
them: each element carries its trailing newline, except possibly the last.
-/

namespace LitexAxiConverter

/-- Character-list test: does `pat` occur at the head of `s`?  This is the
semantics of a Python regex match anchored at position 0 of the string. -/
def leadMatch : List Char → List Char → Bool
  | [], _ => true
  | _ :: _, [] => false
  | p :: ps, c :: cs => (p == c) && leadMatch ps cs

/-- Character-list test: does `pat` occur as a contiguous substring of `s`?
This is the semantics of Python's `re.search` applied to a plain-text pattern
(no metacharacters). -/
def occursIn (pat : List Char) : List Char → Bool
  | [] => leadMatch pat []
  | c :: cs => leadMatch pat (c :: cs) || occursIn pat cs

/-- The immutable build configuration of `AXIConverter.__init__`
(`src/axi_converter.py` line 302): the five generic parameters saved on the
module (`self.address_width` … `self.reverse`).  Widths are Python integers,
modelled as `Int`. -/
structure BuildConfiguration where
  address_width : Int
  input_width : Int
  output_width : Int
  user_width : Int
  reverse : Bool
deriving DecidableEq

/-- The raw CLI arguments consumed by `main` (`src/axi_converter.py`
lines 534-547): `int(args.input_width)`, `int(args.output_width)`,
`int(args.user_width)` and the boolean `args.reverse`. -/
structure RawArgs where
  input_width : Int
  output_width : Int
  user_width : Int
  reverse : Bool
deriving DecidableEq

/-- Parameter resolution as performed by `main` (`src/axi_converter.py`
lines 545-553): the converted CLI integers are passed straight to
`AXIConverter`, whose `address_width` keeps its default of 64.  The source
performs no validation of any width: there is no failure path. -/
def resolve (args : RawArgs) : BuildConfiguration :=
  { address_width := 64
    input_width := args.input_width
    output_width := args.output_width
    user_width := args.user_width
    reverse := args.reverse }

/-- The end-of-port-list marker test of `_netlist_post_processing`
(`src/axi_converter.py` line 374): `re.search("^\);\n", line)`.  Without
`re.MULTILINE` the `^` anchors at position 0, so the regex matches exactly
when the line starts with the two characters `);` followed by a newline. -/
def netlist_marker (line : String) : Bool :=
  leadMatch ");\n".toList line.toList

/-- The five parameter-declaration lines written by `_netlist_post_processing`
(`src/axi_converter.py` lines 376-380).  Note that the source writes the
literal `0` for `reverse` (`"parameter {} = {};\n".format("reverse", 0)`),
not the configured flag. -/
def param_lines (cfg : BuildConfiguration) : List String :=
  [ "parameter address_width = " ++ toString cfg.address_width ++ ";\n"
  , "parameter input_width = " ++ toString cfg.input_width ++ ";\n"
  , "parameter output_width = " ++ toString cfg.output_width ++ ";\n"
  , "parameter user_width = " ++ toString cfg.user_width ++ ";\n"
  , "parameter reverse = 0;\n" ]

/-- The writer loop of `_netlist_post_processing` (`src/axi_converter.py`
lines 370-381), threading the `Found` flag: every input line is copied, and
after the first marker line (only) the five parameter lines are inserted. -/
def netlist_post_loop (cfg : BuildConfiguration) : Bool → List String → List String
  | _, [] => []
  | found, line :: rest =>
    if netlist_marker line && !found then
      line :: (param_lines cfg ++ netlist_post_loop cfg true rest)
    else
      line :: netlist_post_loop cfg found rest

/-- `_netlist_post_processing` (`src/axi_converter.py` lines 364-381) on the
list of input lines, with `Found` initially `False`. -/
def netlist_post_processing (cfg : BuildConfiguration) (inline : List String) : List String :=
  netlist_post_loop cfg false inline

/-- The section-marker test of `_constraints_post_processing`
(`src/axi_converter.py` line 393): `re.search("Design constraints", line)`,
a case-sensitive substring search (note the capital `D`). -/
def constraints_marker (line : String) : Bool :=
  occursIn "Design constraints".toList line.toList

/-- The writer loop of `_constraints_post_processing` (`src/axi_converter.py`
lines 390-397), threading the `Found` flag: a line is written exactly when
the marker has been seen on it or on an earlier line. -/
def constraints_post_loop : Bool → List String → List String
  | _, [] => []
  | found, line :: rest =>
    if found || constraints_marker line then
      line :: constraints_post_loop true rest
    else
      constraints_post_loop found rest

/-- `_constraints_post_processing` (`src/axi_converter.py` lines 384-397) on
the list of input lines, with `Found` initially `False`. -/
def constraints_post_processing (inline : List String) : List String :=
  constraints_post_loop false inline

/-- One member entry of a GUI group: a key of the inner `vars` dictionary of
`get_gui_interface` (`src/axi_converter.py` lines 219-263) together with its
`order` value. -/
structure GuiVarSpec where
  varName : String
  varOrder : Nat
deriving DecidableEq

/-- One entry of the `get_gui_interface` dictionary: the group name, its
`order` value, and its `vars` in declaration sequence (Python dictionaries
iterate in insertion order). -/
structure GuiGroupSpec where
  groupName : String
  groupOrder : Nat
  vars : List GuiVarSpec
deriving DecidableEq

/-- The fixed GUI description returned by `get_gui_interface`
(`src/axi_converter.py` lines 219-263), in declaration sequence. -/
def get_gui_interface : List GuiGroupSpec :=
  [ ⟨"AXI Lite", 0, [⟨"address_width", 0⟩]⟩
  , ⟨"AXI Stream", 1, [⟨"input_width", 0⟩, ⟨"output_width", 1⟩, ⟨"user_width", 2⟩]⟩
  , ⟨"Misc", 2, [⟨"reverse", 0⟩]⟩ ]

/-- One statement appended by `build_gui` (`src/axi_converter.py`
lines 265-286), keeping the data each emitted line interpolates:
`header` is the `# Set GUI properties` comment line, `addGroup` an
`ipgui::add_group` line, `moveParam` an `ipgui::move_param` line (carrying
the parent group name and the member `order`), and `disableParam` a
`set_property enablement_value false` line. -/
inductive GuiStmt where
  | header
  | addGroup (groupName : String)
  | moveParam (groupName varName : String) (varOrder : Nat)
  | disableParam (varName : String)
deriving DecidableEq

/-- The statement sequence built by `build_gui` (`src/axi_converter.py`
lines 265-286) over a GUI description: first the header comment, then one
`add_group` statement per group in declaration sequence, then, again per
group in declaration sequence, for each member in declaration sequence an
`ipgui::move_param` statement followed by its `enablement_value false`
statement.  The source never sorts by the `order` fields, and never reads a
group's `order` field at all. -/
def build_gui (gui : List GuiGroupSpec) : List GuiStmt :=
  GuiStmt.header ::
    ((gui.map fun g => GuiStmt.addGroup g.groupName)
      ++ gui.flatMap (fun g => g.vars.flatMap fun v =>
          [GuiStmt.moveParam g.groupName v.varName v.varOrder,
           GuiStmt.disableParam v.varName]))

/-- The `(group order, member order)` key of each `ipgui::move_param`
statement of `build_gui`, in emission order: group by group in declaration
sequence, members in declaration sequence within each group. -/
def moveKeys (gui : List GuiGroupSpec) : List (Nat × Nat) :=
  gui.flatMap fun g => g.vars.map fun v => (g.groupOrder, v.varOrder)

/-- Strict lexicographic order on `(group order, member order)` keys:
"sorted first by ascending group order and then by ascending member order". -/
def guiKeyLt (p q : Nat × Nat) : Prop :=
  p.1 < q.1 ∨ (p.1 = q.1 ∧ p.2 < q.2)

instance : DecidableRel guiKeyLt := fun p q => by
  unfold guiKeyLt; infer_instance

/-- Bool test selecting the `ipgui::move_param` statements of an emitted GUI
statement list. -/
def isMoveParam : GuiStmt → Bool
  | GuiStmt.moveParam _ _ _ => true
  | _ => false

/-- One statement of the `tcl` list built by `generate_package`
(`src/axi_converter.py` lines 414-453), with constructors keeping the data
that each `tcl.append` interpolates.  Proc bodies (which are emitted before
any use and are never referenced by the claims) are kept opaque, identified
by the proc name.  `addBus` is the `wishbone_add_bus` snippet
(lines 198-215), which calls `proc_add_bus "wishbone_in" ...`: it is the
only explicit bus-interface declaration statement in the script.
`addBusClock` is a `proc_add_bus_clock` call, whose second argument is the
colon-separated list of associated bus names. -/
inductive PkgStmt where
  | procDef (procName : String)
  | createProject (buildName : String)
  | addIpFiles (buildName : String)
  | packageProject
  | setCoreName (buildName : String)
  | setDeviceFamily (setting : String)
  | saveCore
  | addBus (busName : String)
  | addBusClock (clockName busArg resetName : String)
  | declareInterrupt (irqName : String)
  | guiBlock (stmts : List GuiStmt)
  | setVersion (ipName versionNumber revision description : String)
  | createXguiFiles
  | updateChecksums
  | checkIntegrity
  | archiveIp (vendorName buildName versionNumber : String)
  | closeProject
  | exitCmd
deriving DecidableEq

/-- Splitting a colon-separated name list into its components, accumulating
the current component in reverse: this is how a Tcl `ASSOCIATED_BUSIF` value
such as `"axis_in:axis_out"` names several bus interfaces. -/
def splitNames (acc : List Char) : List Char → List String
  | [] => [String.mk acc.reverse]
  | c :: cs => if c = ':' then String.mk acc.reverse :: splitNames [] cs
               else splitNames (c :: acc) cs

/-- The bus names referenced by a statement: a `proc_add_bus_clock` call
references each name of its colon-separated bus argument; no other statement
references a bus by name. -/
def busRefs : PkgStmt → List String
  | PkgStmt.addBusClock _ busArg _ => splitNames [] busArg.toList
  | _ => []

/-- The bus name declared by a statement: only the explicit `proc_add_bus`
snippet declares one. -/
def busDeclName : PkgStmt → Option String
  | PkgStmt.addBus b => some b
  | _ => none

/-- The `tcl` statement list built by `generate_package`
(`src/axi_converter.py` lines 399-453) for a given `build_name`, one list
element per `tcl.append`, in source order.  The version number is the local
`version_number = "1.3"` of line 401. -/
def generate_package_tcl (build_name : String) : List PkgStmt :=
  [ PkgStmt.procDef "proc_add_ip_files"
  , PkgStmt.procDef "proc_add_bus"
  , PkgStmt.procDef "proc_add_bus_clock"
  , PkgStmt.procDef "proc_declare_interrupt"
  , PkgStmt.procDef "proc_set_version"
  , PkgStmt.procDef "proc_set_device_family"
  , PkgStmt.procDef "proc_archive_ip"
  , PkgStmt.createProject build_name
  , PkgStmt.addIpFiles build_name
  , PkgStmt.packageProject
  , PkgStmt.setCoreName build_name
  , PkgStmt.setDeviceFamily "all"
  , PkgStmt.saveCore
  , PkgStmt.addBus "wishbone_in"
  , PkgStmt.addBusClock "axilite_clk" "wishbone_in" "axilite_rst"
  , PkgStmt.addBusClock "axis_clk" "axis_in:axis_out" "axis_rst"
  , PkgStmt.addBusClock "axilite_clk" "axilite_in" "axilite_rst"
  , PkgStmt.declareInterrupt "irq"
  , PkgStmt.guiBlock (build_gui get_gui_interface)
  , PkgStmt.setVersion "AXIConverter" "1.3" "0" "axi_converter IP (Packaging Proof of Concept)"
  , PkgStmt.createXguiFiles
  , PkgStmt.updateChecksums
  , PkgStmt.checkIntegrity
  , PkgStmt.saveCore
  , PkgStmt.archiveIp "Enjoy-Digital" build_name "1.3"
  , PkgStmt.closeProject
  , PkgStmt.exitCmd ]

/-- Classification of package statements for index reasoning: 1 for the
explicit bus-interface declaration, 2 for a clock binding, 0 otherwise. -/
def stmtKind : PkgStmt → Nat
  | PkgStmt.addBus _ => 1
  | PkgStmt.addBusClock _ _ _ => 2
  | _ => 0

/-- The kind sequence of the emitted package script, independent of the
build name. -/
def gpKindList : List Nat :=
  [0, 0, 0, 0, 0, 0, 0, 0, 0, 0, 0, 0, 0, 1, 2, 2, 2, 0, 0, 0, 0, 0, 0, 0, 0, 0, 0]

/-- Bool test selecting the GUI statements emitted by the second loop of
`build_gui`: the `ipgui::move_param` lines and the
`set_property enablement_value false` lines. -/
def isParamStmt : GuiStmt → Bool
  | GuiStmt.moveParam _ _ _ => true
  | GuiStmt.disableParam _ => true
  | _ => false

/-! ### Helper lemmas -/

/-- Once the marker has been seen, the netlist writer loop copies the
remaining lines verbatim. -/
theorem netlist_post_loop_found (cfg : BuildConfiguration) (l : List String) :
    netlist_post_loop cfg true l = l := by
  induction l with
  | nil => rfl
  | cons line rest ih => simp [netlist_post_loop, ih]

/-- Once the marker has been seen, the constraints writer loop copies the
remaining lines verbatim. -/
theorem constraints_post_loop_found (l : List String) :
    constraints_post_loop true l = l := by
  induction l with
  | nil => rfl
  | cons line rest ih => simp [constraints_post_loop, ih]

/-- The per-statement kinds of the package script do not depend on the
build name. -/
theorem gp_kinds (n : String) :
    (generate_package_tcl n).map stmtKind = gpKindList := rfl

/-- The only statement of the package script that explicitly declares a bus
interface sits at index 13 (the `wishbone_add_bus` snippet). -/
theorem addBus_index (n : String) (i : Nat) (s : PkgStmt) (b : String)
    (hs : (generate_package_tcl n)[i]? = some s) (hb : busDeclName s = some b) :
    i = 13 := by
  have hkind : stmtKind s = 1 := by
    cases s <;> simp [busDeclName] at hb ⊢
    rfl
  have hmap : gpKindList[i]? = some 1 := by
    have h1 : ((generate_package_tcl n).map stmtKind)[i]? = some 1 := by
      rw [List.getElem?_map, hs]
      simp [hkind]
    rwa [gp_kinds n] at h1
  have hlt : i < gpKindList.length := by
    by_contra hge
    rw [List.getElem?_eq_none (Nat.le_of_not_lt hge)] at hmap
    exact Option.noConfusion hmap
  exact (by decide : ∀ k, k < gpKindList.length → gpKindList[k]? = some 1 → k = 13) i hlt hmap

/-- Every clock-binding statement of the package script sits at an index
greater than 13 (they are the statements of kind 2, at indices 14-16). -/
theorem addBusClock_index (n : String) (j : Nat) (t : PkgStmt)
    (ht : (generate_package_tcl n)[j]? = some t) (hk : stmtKind t = 2) :
    13 < j := by
  have hmap : gpKindList[j]? = some 2 := by
    have h1 : ((generate_package_tcl n).map stmtKind)[j]? = some 2 := by
      rw [List.getElem?_map, ht]
      simp [hk]
    rwa [gp_kinds n] at h1
  have hlt : j < gpKindList.length := by
    by_contra hge
    rw [List.getElem?_eq_none (Nat.le_of_not_lt hge)] at hmap
    exact Option.noConfusion hmap
  exact (by decide : ∀ k, k < gpKindList.length → gpKindList[k]? = some 2 → 13 < k) j hlt hmap

/-! ### Claim theorems -/

/-- C2 counterexample: on an input text with no end-of-port-list marker line
the transform injects nothing at all, so the output does not contain the
five injected parameter lines the claim requires for every input. -/
theorem netlist_inject_no_marker_cex :
    netlist_post_processing ⟨64, 128, 64, 0, false⟩ ["foo\n"] = ["foo\n"]
    ∧ "parameter reverse = 0;\n" ∈ param_lines ⟨64, 128, 64, 0, false⟩
    ∧ "parameter reverse = 0;\n" ∉ netlist_post_processing ⟨64, 128, 64, 0, false⟩ ["foo\n"] := by
  decide

/-- C2 (amended): for every configuration and every input that contains at
least one marker line, the output is the input with exactly the five
parameter lines inserted immediately after the first marker line and nowhere
else; the earlier lines are marker-free and the later lines (where the
marker may recur) are passed through unchanged. -/
theorem netlist_inject_once (cfg : BuildConfiguration) (inline : List String)
    (h : ∃ l ∈ inline, netlist_marker l = true) :
    ∃ pre m post, inline = pre ++ m :: post
      ∧ (∀ l ∈ pre, netlist_marker l = false)
      ∧ netlist_marker m = true
      ∧ netlist_post_processing cfg inline = pre ++ m :: (param_lines cfg ++ post)
      ∧ (param_lines cfg).length = 5 := by
  induction inline with
  | nil => simp at h
  | cons line rest ih =>
    cases hm : netlist_marker line with
    | true =>
      refine ⟨[], line, rest, rfl, by simp, hm, ?_, rfl⟩
      simp [netlist_post_processing, netlist_post_loop, hm, netlist_post_loop_found]
    | false =>
      have hrest : ∃ l ∈ rest, netlist_marker l = true := by
        rcases h with ⟨l, hl, hml⟩
        rcases List.mem_cons.mp hl with rfl | hl'
        · rw [hm] at hml; exact Bool.noConfusion hml
        · exact ⟨l, hl', hml⟩
      obtain ⟨pre, m, post, heq, hpre, hmm, hout, hlen⟩ := ih hrest
      refine ⟨line :: pre, m, post, by rw [heq]; rfl, ?_, hmm, ?_, hlen⟩
      · intro l hl
        rcases List.mem_cons.mp hl with rfl | hl'
        · exact hm
        · exact hpre l hl'
      · have : netlist_post_processing cfg (line :: rest) =
            line :: netlist_post_processing cfg rest := by
          simp [netlist_post_processing, netlist_post_loop, hm]
        rw [this, hout]
        rfl

/-- Witness for the amended C2 theorem at a concrete marker-bearing input. -/
theorem netlist_inject_once_witness :
    ∃ pre m post, ([");\n"] : List String) = pre ++ m :: post
      ∧ (∀ l ∈ pre, netlist_marker l = false)
      ∧ netlist_marker m = true
      ∧ netlist_post_processing ⟨64, 128, 64, 0, false⟩ [");\n"] =
          pre ++ m :: (param_lines ⟨64, 128, 64, 0, false⟩ ++ post)
      ∧ (param_lines ⟨64, 128, 64, 0, false⟩).length = 5 :=
  netlist_inject_once ⟨64, 128, 64, 0, false⟩ [");\n"] ⟨");\n", by decide, by decide⟩

/-- C3: the code hardcodes the injected reverse line.  With `reverse`
configured `True`, the netlist transform still writes
`parameter reverse = 0;` (`src/axi_converter.py` line 380), and the line
`parameter reverse = 1;` appears nowhere in the output, although the claim
says the line reflects the configured flag. -/
theorem netlist_reverse_line_hardcoded :
    (⟨64, 128, 64, 0, true⟩ : BuildConfiguration).reverse = true
    ∧ netlist_post_processing ⟨64, 128, 64, 0, true⟩ [");\n"] =
        [");\n", "parameter address_width = 64;\n", "parameter input_width = 128;\n",
         "parameter output_width = 64;\n", "parameter user_width = 0;\n",
         "parameter reverse = 0;\n"]
    ∧ "parameter reverse = 1;\n" ∉ netlist_post_processing ⟨64, 128, 64, 0, true⟩ [");\n"] := by
  decide

/-- C4 counterexample: the claimed example input with the lowercase marker
`-- design constraints --` yields the empty document, not the claimed
truncation, because the code's marker is `Design constraints` with a
capital `D`. -/
theorem constraints_lowercase_marker_cex :
    constraints_post_processing ["junk\n", "-- design constraints --\n", "keep me"] = []
    ∧ constraints_post_processing ["junk\n", "-- design constraints --\n", "keep me"] ≠
        ["-- design constraints --\n", "keep me"] := by
  decide

/-- C4 (amended): the case-sensitive marker is `Design constraints` (capital
`D`), matched as a substring of the line; the transform discards every line
before the first line containing it and keeps that line and everything
after. -/
theorem constraints_keep_from_marker (pre : List String) (m : String) (post : List String)
    (hpre : ∀ l ∈ pre, constraints_marker l = false)
    (hm : constraints_marker m = true) :
    constraints_post_processing (pre ++ m :: post) = m :: post := by
  induction pre with
  | nil =>
    simp [constraints_post_processing, constraints_post_loop, hm, constraints_post_loop_found]
  | cons line rest ih =>
    have hline : constraints_marker line = false := hpre line (List.mem_cons_self _ _)
    have hrest : ∀ l ∈ rest, constraints_marker l = false :=
      fun l hl => hpre l (List.mem_cons_of_mem _ hl)
    have : constraints_post_processing (line :: (rest ++ m :: post)) =
        constraints_post_processing (rest ++ m :: post) := by
      simp [constraints_post_processing, constraints_post_loop, hline]
    rw [List.cons_append, this]
    exact ih hrest

/-- Witness for the amended C4 theorem at the capitalised variant of the
spec's example input. -/
theorem constraints_keep_from_marker_witness :
    constraints_post_processing ["junk\n", "-- Design constraints --\n", "keep me"] =
      ["-- Design constraints --\n", "keep me"] :=
  constraints_keep_from_marker ["junk\n"] "-- Design constraints --\n" ["keep me"]
    (by decide) (by decide)

/-- C5: when no line of the constraints input contains the section marker,
the output is the empty document; the transform simply writes nothing and
raises no error. -/
theorem constraints_no_marker_empty (inline : List String)
    (h : ∀ l ∈ inline, constraints_marker l = false) :
    constraints_post_processing inline = [] := by
  induction inline with
  | nil => rfl
  | cons line rest ih =>
    have hline : constraints_marker line = false := h line (List.mem_cons_self _ _)
    have : constraints_post_processing (line :: rest) =
        constraints_post_processing rest := by
      simp [constraints_post_processing, constraints_post_loop, hline]
    rw [this]
    exact ih (fun l hl => h l (List.mem_cons_of_mem _ hl))

/-- Witness for the C5 theorem at the spec's marker-free example input. -/
theorem constraints_no_marker_empty_witness :
    constraints_post_processing ["no marker here\n", "more text"] = [] :=
  constraints_no_marker_empty ["no marker here\n", "more text"] (by decide)

/-- C7 counterexample: resolution accepts a width that is not a multiple of
8 and a non-positive width, producing a configuration in both cases instead
of failing: the source performs no parameter validation at all. -/
theorem resolve_accepts_invalid_widths_cex :
    (7 : Int) % 8 ≠ 0
    ∧ resolve ⟨7, 64, 0, false⟩ = ⟨64, 7, 64, 0, false⟩
    ∧ (-8 : Int) ≤ 0
    ∧ resolve ⟨-8, 64, 0, false⟩ = ⟨64, -8, 64, 0, false⟩ := by
  decide

/-- C7 (amended): parameter resolution is total: every supplied argument
set, including non-positive widths and widths that are not byte multiples,
is passed through unchanged (with the default address width 64) and no
error is ever raised. -/
theorem resolve_total (args : RawArgs) :
    (resolve args).address_width = 64
    ∧ (resolve args).input_width = args.input_width
    ∧ (resolve args).output_width = args.output_width
    ∧ (resolve args).user_width = args.user_width
    ∧ (resolve args).reverse = args.reverse :=
  ⟨rfl, rfl, rfl, rfl, rfl⟩

/-- C9: the netlist transform only inserts: every input line appears in the
output unmodified and in its original order (the input is a sublist of the
output), and the output is either the input itself or the input with the
block of five parameter lines inserted at a single position. -/
theorem netlist_only_inserts (cfg : BuildConfiguration) (inline : List String) :
    inline.Sublist (netlist_post_processing cfg inline)
    ∧ (netlist_post_processing cfg inline = inline
       ∨ ∃ pre post, inline = pre ++ post
           ∧ netlist_post_processing cfg inline = pre ++ (param_lines cfg ++ post)) := by
  induction inline with
  | nil => exact ⟨List.Sublist.refl _, Or.inl rfl⟩
  | cons line rest ih =>
    cases hm : netlist_marker line with
    | true =>
      have hout : netlist_post_processing cfg (line :: rest) =
          line :: (param_lines cfg ++ rest) := by
        simp [netlist_post_processing, netlist_post_loop, hm, netlist_post_loop_found]
      constructor
      · rw [hout]
        exact List.Sublist.cons₂ _ (List.sublist_append_right _ _)
      · right
        exact ⟨[line], rest, rfl, by rw [hout]; rfl⟩
    | false =>
      have hout : netlist_post_processing cfg (line :: rest) =
          line :: netlist_post_processing cfg rest := by
        simp [netlist_post_processing, netlist_post_loop, hm]
      constructor
      · rw [hout]
        exact List.Sublist.cons₂ _ ih.1
      · rcases ih.2 with heq | ⟨pre, post, heq, hpost⟩
        · left
          rw [hout, heq]
        · right
          exact ⟨line :: pre, post, by rw [heq]; rfl, by rw [hout, hpost]; rfl⟩

/-- C1: in the emitted packaging script, every statement that declares a bus
interface sits at a strictly smaller statement index than every clock-binding
statement, in particular than every clock binding referencing the declared
bus by name; this holds for every build name. -/
theorem bus_decl_before_clock_binding (n : String) (i j : Nat) (s t : PkgStmt) (b : String)
    (hs : (generate_package_tcl n)[i]? = some s)
    (hd : busDeclName s = some b)
    (ht : (generate_package_tcl n)[j]? = some t)
    (hr : b ∈ busRefs t) :
    i < j := by
  have hi : i = 13 := addBus_index n i s b hs hd
  have hkt : stmtKind t = 2 := by
    cases t <;> simp [busRefs] at hr
    rfl
  have hj : 13 < j := addBusClock_index n j t ht hkt
  omega

/-- Witness for the C1 theorem: the `wishbone_in` bus declaration at index 13
precedes the clock binding at index 14 that references `wishbone_in`. -/
theorem bus_decl_before_clock_binding_witness : 13 < 14 :=
  bus_decl_before_clock_binding "axi_converter_128b_to_64b" 13 14
    (PkgStmt.addBus "wishbone_in")
    (PkgStmt.addBusClock "axilite_clk" "wishbone_in" "axilite_rst")
    "wishbone_in" rfl rfl rfl (by decide)

/-- C6 counterexample: the emitted script contains (at index 15) a clock
binding whose associated bus names include `axis_in`, although no statement
of the script declares a bus named `axis_in`; the full script is still
produced and no error interrupts emission. -/
theorem dangling_clock_binding_emitted_cex :
    (generate_package_tcl "axi_converter_128b_to_64b")[15]? =
        some (PkgStmt.addBusClock "axis_clk" "axis_in:axis_out" "axis_rst")
    ∧ "axis_in" ∈ busRefs (PkgStmt.addBusClock "axis_clk" "axis_in:axis_out" "axis_rst")
    ∧ PkgStmt.addBus "axis_in" ∉ generate_package_tcl "axi_converter_128b_to_64b"
    ∧ generate_package_tcl "axi_converter_128b_to_64b" ≠ [] := by
  decide

/-- C6 (amended): the emitter performs no catalog validation: for every build
name the script contains clock bindings referencing buses (`axis_in`,
`axis_out`, `axilite_in`) for which no explicit bus-interface declaration
statement exists — the only declared bus is `wishbone_in` — and nevertheless
all 27 statements are emitted and no error is raised. -/
theorem generate_package_no_dangling_check (n : String) :
    (generate_package_tcl n)[15]? =
        some (PkgStmt.addBusClock "axis_clk" "axis_in:axis_out" "axis_rst")
    ∧ "axis_in" ∈ busRefs (PkgStmt.addBusClock "axis_clk" "axis_in:axis_out" "axis_rst")
    ∧ (∀ (i : Nat) (b : String),
        (generate_package_tcl n)[i]? = some (PkgStmt.addBus b) → b = "wishbone_in")
    ∧ (generate_package_tcl n).length = 27 := by
  refine ⟨rfl, by decide, ?_, rfl⟩
  intro i b h
  have hi : i = 13 := addBus_index n i (PkgStmt.addBus b) b h rfl
  subst hi
  have h13 : (generate_package_tcl n)[13]? = some (PkgStmt.addBus "wishbone_in") := rfl
  rw [h13] at h
  exact (PkgStmt.addBus.inj (Option.some.inj h)).symm

/-- Witness for the amended C6 theorem at a concrete build name, applying the
validation-absence conjunct at the one declared bus. -/
theorem generate_package_no_dangling_check_witness :
    (generate_package_tcl "axi_converter_128b_to_64b")[15]? =
        some (PkgStmt.addBusClock "axis_clk" "axis_in:axis_out" "axis_rst")
    ∧ "wishbone_in" = "wishbone_in" :=
  ⟨(generate_package_no_dangling_check "axi_converter_128b_to_64b").1,
   (generate_package_no_dangling_check "axi_converter_128b_to_64b").2.2.1 13 "wishbone_in" rfl⟩

/-- Filtering the move/disable pair list of one group keeps exactly the
`ipgui::move_param` statements, in member declaration order. -/
theorem filter_move_pair (gname : String) (vs : List GuiVarSpec) :
    (vs.flatMap fun v => [GuiStmt.moveParam gname v.varName v.varOrder,
                          GuiStmt.disableParam v.varName]).filter isMoveParam =
      vs.map fun v => GuiStmt.moveParam gname v.varName v.varOrder := by
  induction vs with
  | nil => rfl
  | cons v rest ih =>
    simp [List.flatMap_cons, List.filter_append, isMoveParam, ih]

/-- The first loop of `build_gui` emits no `ipgui::move_param` statement. -/
theorem filter_addGroups (gui : List GuiGroupSpec) :
    (gui.map fun g => GuiStmt.addGroup g.groupName).filter isMoveParam = [] := by
  induction gui with
  | nil => rfl
  | cons g rest ih => simp [isMoveParam, ih]

/-- The `ipgui::move_param` statements of `build_gui` are exactly one per
member, group by group in declaration sequence and member by member in
declaration sequence within each group. -/
theorem build_gui_filter_moves (gui : List GuiGroupSpec) :
    (build_gui gui).filter isMoveParam =
      gui.flatMap fun g => g.vars.map fun v =>
        GuiStmt.moveParam g.groupName v.varName v.varOrder := by
  have hmain : ∀ gs : List GuiGroupSpec,
      (gs.flatMap fun g => g.vars.flatMap fun v =>
          [GuiStmt.moveParam g.groupName v.varName v.varOrder,
           GuiStmt.disableParam v.varName]).filter isMoveParam =
        gs.flatMap fun g => g.vars.map fun v =>
          GuiStmt.moveParam g.groupName v.varName v.varOrder := by
    intro gs
    induction gs with
    | nil => rfl
    | cons g rest ih =>
      simp [List.flatMap_cons, List.filter_append, filter_move_pair, ih]
  simp [build_gui, isMoveParam, List.filter_append, filter_addGroups, hmain]

/-- Declaration-sorted GUI descriptions yield lexicographically sorted
move-statement keys. -/
theorem pairwise_moveKeys : ∀ gui : List GuiGroupSpec,
    gui.Pairwise (fun a b => a.groupOrder < b.groupOrder) →
    (∀ g ∈ gui, g.vars.Pairwise fun u w => u.varOrder < w.varOrder) →
    (moveKeys gui).Pairwise guiKeyLt
  | [], _, _ => List.Pairwise.nil
  | g :: rest, hg, hv => by
    have hg1 : ∀ g' ∈ rest, g.groupOrder < g'.groupOrder := (List.pairwise_cons.mp hg).1
    have hg2 := (List.pairwise_cons.mp hg).2
    have ih := pairwise_moveKeys rest hg2
      (fun g' hgmem => hv g' (List.mem_cons_of_mem _ hgmem))
    show ((g :: rest).flatMap fun g => g.vars.map fun v => (g.groupOrder, v.varOrder)).Pairwise guiKeyLt
    rw [List.flatMap_cons, List.pairwise_append]
    refine ⟨?_, ih, ?_⟩
    · rw [List.pairwise_map]
      exact (hv g (List.mem_cons_self _ _)).imp fun h => Or.inr ⟨rfl, h⟩
    · intro a ha b hb
      obtain ⟨v, _, rfl⟩ := List.mem_map.mp ha
      obtain ⟨g', hg', hb'⟩ := List.mem_flatMap.mp hb
      obtain ⟨w, _, rfl⟩ := List.mem_map.mp hb'
      exact Or.inl (hg1 g' hg')

/-- C8 counterexample: for a two-group description declared with group orders
{1, 0}, `build_gui` emits the move statement of the order-1 group (index 3)
before that of the order-0 group (index 5): the emitted statements follow
declaration sequence, not ascending group order, so they are not sorted. -/
theorem build_gui_not_sorted_cex :
    (build_gui [⟨"G1", 1, [⟨"a", 0⟩]⟩, ⟨"G0", 0, [⟨"b", 0⟩]⟩])[3]? =
        some (GuiStmt.moveParam "G1" "a" 0)
    ∧ (build_gui [⟨"G1", 1, [⟨"a", 0⟩]⟩, ⟨"G0", 0, [⟨"b", 0⟩]⟩])[5]? =
        some (GuiStmt.moveParam "G0" "b" 0)
    ∧ ¬ (moveKeys [⟨"G1", 1, [⟨"a", 0⟩]⟩, ⟨"G0", 0, [⟨"b", 0⟩]⟩]).Pairwise guiKeyLt := by
  decide

/-- C8 (amended): `build_gui` never re-sorts: the emitted
`ipgui::move_param` statements follow the declaration sequence of the input
(group by group, member by member), and they are sorted first by ascending
group order and then by ascending member order exactly when the declaration
sequence is itself so sorted — as the program's fixed GUI description is. -/
theorem build_gui_sorted_when_decl_sorted (gui : List GuiGroupSpec)
    (hg : gui.Pairwise fun a b => a.groupOrder < b.groupOrder)
    (hv : ∀ g ∈ gui, g.vars.Pairwise fun u w => u.varOrder < w.varOrder) :
    (build_gui gui).filter isMoveParam =
      (gui.flatMap fun g => g.vars.map fun v =>
        GuiStmt.moveParam g.groupName v.varName v.varOrder)
    ∧ (moveKeys gui).Pairwise guiKeyLt :=
  ⟨build_gui_filter_moves gui, pairwise_moveKeys gui hg hv⟩

/-- Witness for the amended C8 theorem: the program's fixed GUI description
is declaration-sorted, so its emitted move-statement keys are sorted. -/
theorem build_gui_sorted_when_decl_sorted_witness :
    (moveKeys get_gui_interface).Pairwise guiKeyLt :=
  (build_gui_sorted_when_decl_sorted get_gui_interface (by decide) (by decide)).2

/-- Every statement of the second loop of `build_gui` is a move or disable
statement, and the group name of each move statement is the name of a group
of the description. -/
theorem mem_gui_tail (gui : List GuiGroupSpec) (s : GuiStmt)
    (hs : s ∈ gui.flatMap fun g => g.vars.flatMap fun v =>
        [GuiStmt.moveParam g.groupName v.varName v.varOrder,
         GuiStmt.disableParam v.varName]) :
    (∃ g ∈ gui, ∃ v ∈ g.vars, s = GuiStmt.moveParam g.groupName v.varName v.varOrder)
    ∨ (∃ v, s = GuiStmt.disableParam v) := by
  obtain ⟨g, hg, hs⟩ := List.mem_flatMap.mp hs
  obtain ⟨v, hvv, hs⟩ := List.mem_flatMap.mp hs
  rcases List.mem_cons.mp hs with rfl | hs
  · exact Or.inl ⟨g, hg, v, hvv, rfl⟩
  · rcases List.mem_cons.mp hs with rfl | hs
    · exact Or.inr ⟨v.varName, rfl⟩
    · exact absurd hs (List.not_mem_nil _)

/-- An `ipgui::add_group` statement can only sit in the header-and-groups
region of the emitted GUI statement list: at an index at most the number of
groups. -/
theorem gui_addGroup_index (gui : List GuiGroupSpec) (i : Nat) (gname : String)
    (h : (build_gui gui)[i]? = some (GuiStmt.addGroup gname)) :
    i < 1 + gui.length := by
  by_contra hge
  obtain ⟨k, rfl⟩ : ∃ k, i = k + 1 := ⟨i - 1, by omega⟩
  have hk : (gui.map fun g => GuiStmt.addGroup g.groupName).length ≤ k := by
    rw [List.length_map]
    omega
  rw [build_gui, List.getElem?_cons_succ, List.getElem?_append_right hk] at h
  have hmem := List.mem_iff_getElem?.mpr ⟨_, h⟩
  rcases mem_gui_tail gui _ hmem with ⟨g, _, v, _, heq⟩ | ⟨v, heq⟩ <;>
    exact GuiStmt.noConfusion heq

/-- A move or disable statement can only sit in the second region of the
emitted GUI statement list: at an index greater than the number of groups. -/
theorem gui_param_index (gui : List GuiGroupSpec) (j : Nat) (t : GuiStmt)
    (ht : (build_gui gui)[j]? = some t) (hp : isParamStmt t = true) :
    gui.length < j := by
  by_contra hle
  rcases Nat.eq_zero_or_pos j with rfl | hpos
  · have h0 : (build_gui gui)[0]? = some GuiStmt.header := by
      rw [build_gui, List.getElem?_cons_zero]
    rw [h0] at ht
    have := Option.some.inj ht
    rw [← this] at hp
    exact Bool.noConfusion hp
  · obtain ⟨k, rfl⟩ : ∃ k, j = k + 1 := ⟨j - 1, by omega⟩
    have hk : k < (gui.map fun g => GuiStmt.addGroup g.groupName).length := by
      rw [List.length_map]
      omega
    rw [build_gui, List.getElem?_cons_succ, List.getElem?_append_left hk,
      List.getElem?_map] at ht
    rcases hg : gui[k]? with _ | g
    · rw [hg] at ht
      exact Option.noConfusion ht
    · rw [hg] at ht
      have : GuiStmt.addGroup g.groupName = t := Option.some.inj ht
      rw [← this] at hp
      exact Bool.noConfusion hp

/-- C10: `build_gui` emits every group-creation statement before any
parameter-move or parameter-disable statement, and every group referenced by
a parameter-move statement has been created by an earlier statement of the
emitted list. -/
theorem build_gui_groups_created_first (gui : List GuiGroupSpec) :
    (∀ (i j : Nat) (gname gname2 vname : String) (ord : Nat),
        (build_gui gui)[i]? = some (GuiStmt.addGroup gname) →
        ((build_gui gui)[j]? = some (GuiStmt.moveParam gname2 vname ord)
          ∨ (build_gui gui)[j]? = some (GuiStmt.disableParam vname)) →
        i < j)
    ∧ (∀ (j : Nat) (gname vname : String) (ord : Nat),
        (build_gui gui)[j]? = some (GuiStmt.moveParam gname vname ord) →
        ∃ i, i < j ∧ (build_gui gui)[i]? = some (GuiStmt.addGroup gname)) := by
  constructor
  · intro i j gname gname2 vname ord hi hj
    have h1 : i < 1 + gui.length := gui_addGroup_index gui i gname hi
    have h2 : gui.length < j := by
      rcases hj with hj | hj
      · exact gui_param_index gui j _ hj rfl
      · exact gui_param_index gui j _ hj rfl
    omega
  · intro j gname vname ord hj
    have hlen : gui.length < j := gui_param_index gui j _ hj rfl
    obtain ⟨k, rfl⟩ : ∃ k, j = k + 1 := ⟨j - 1, by omega⟩
    have hk : (gui.map fun g => GuiStmt.addGroup g.groupName).length ≤ k := by
      rw [List.length_map]
      omega
    rw [build_gui, List.getElem?_cons_succ, List.getElem?_append_right hk] at hj
    have hmem := List.mem_iff_getElem?.mpr ⟨_, hj⟩
    rcases mem_gui_tail gui _ hmem with ⟨g, hg, v, _, heq⟩ | ⟨v, heq⟩
    · have hname : gname = g.groupName := by
        injection heq with h1 h2 h3
      obtain ⟨idx, hidx, hgidx⟩ := List.getElem_of_mem hg
      refine ⟨idx + 1, by omega, ?_⟩
      have hidx' : idx < (gui.map fun g => GuiStmt.addGroup g.groupName).length := by
        rw [List.length_map]
        exact hidx
      rw [build_gui, List.getElem?_cons_succ, List.getElem?_append_left hidx',
        List.getElem?_map, List.getElem?_eq_getElem hidx, hgidx, hname]
      rfl
    · exact GuiStmt.noConfusion heq

/-- Witness for the C10 theorem: in the emitted list for the program's GUI
description, the move statement at index 4 referencing group `AXI Lite` is
preceded by an `add_group` statement for that group. -/
theorem build_gui_groups_created_first_witness :
    ∃ i, i < 4 ∧ (build_gui get_gui_interface)[i]? = some (GuiStmt.addGroup "AXI Lite") :=
  (build_gui_groups_created_first get_gui_interface).2 4 "AXI Lite" "address_width" 0 rfl

end LitexAxiConverter
